import Mathlib

/-!
Shallow embedding of `src/currency_converter.py` (class `CurrencyConverter`).

Python dicts are modelled as association lists over `String` keys with
first-match lookup and overwrite-or-append assignment, which matches dict
semantics observationally (each key occurs at most once in any list the
embedding builds).  Numeric rates are modelled as `ℚ`.  Network I/O is
modelled by an explicit environment `Env` carrying the response of
Source A (the generic rate API), the response of Source B (the CBR feed)
and the current time in seconds; each operation returns its result, the
successor converter state, and how many calls it made to each source.
-/

/-- First-match lookup in an association list (Python `d[k]` / `k in d`). -/
def alLookup {α : Type} (k : String) : List (String × α) → Option α
  | [] => none
  | (k', v) :: rest => if k' = k then some v else alLookup k rest

/-- Overwrite-or-append assignment (Python `d[k] = v`). -/
def alSet {α : Type} (k : String) (v : α) : List (String × α) → List (String × α)
  | [] => [(k, v)]
  | (k', v') :: rest => if k' = k then (k, v) :: rest else (k', v') :: alSet k v rest

/-- Key list in insertion order (Python `list(d.keys())`). -/
def alKeys {α : Type} (l : List (String × α)) : List String := l.map Prod.fst

/-- Python `str.upper()` on ASCII currency codes. -/
def pyUpper (s : String) : String := String.mk (s.data.map Char.toUpper)

/-- Code-point lexicographic `≤` on character lists, Python's string order. -/
def charsLe : List Char → List Char → Bool
  | [], _ => true
  | _ :: _, [] => false
  | a :: as, b :: bs =>
    if a.toNat < b.toNat then true
    else if b.toNat < a.toNat then false
    else charsLe as bs

/-- Python's `<=` on strings (comparison by code points), used by `sorted`. -/
def strLe (a b : String) : Bool := charsLe a.data b.data

/-- `strLe` as a relation, the order `sorted` sorts by. -/
abbrev strLeRel (a b : String) : Prop := strLe a b = true

/-- Parsed JSON body of a Source A response: the `rates` field is present
(`some`, a mapping code ↦ rate) or absent (`none`, covering both a falsy
body and a body lacking the field — indistinguishable in every branch of
the source). -/
structure ApiData where
  rates : Option (List (String × ℚ))
deriving DecidableEq

/-- Outcome of the Source A HTTP round trip: a network failure
(`requests.exceptions.RequestException`, including non-2xx status via
`raise_for_status`), an unparseable body (`json.JSONDecodeError`), or a
parsed body. -/
inductive AResp where
  | netErr
  | parseErr
  | ok (data : ApiData)
deriving DecidableEq

/-- One entry of the CBR feed's `Valute` table. -/
structure Valute where
  value : ℚ
  nominal : ℚ
deriving DecidableEq

/-- Parsed CBR (Source B) response: whether the `Valute` field is present,
and its `USD` and `EUR` entries when they exist. -/
structure CbrData where
  hasValute : Bool
  usd : Option Valute
  eur : Option Valute
deriving DecidableEq

/-- The dict built by `_get_rub_rate_from_cbr`: optional per-unit `USD`
and `EUR` rates. -/
structure RubRates where
  usd : Option ℚ
  eur : Option ℚ
deriving DecidableEq

/-- Mutable state of a `CurrencyConverter`: `self.cache` and
`self.cache_timestamps` (timestamps in seconds). -/
structure ConverterState where
  cache : List (String × ApiData)
  cache_timestamps : List (String × Nat)
deriving DecidableEq

/-- External world for one operation: Source A's response, Source B's
response (`none` = network/parse failure), and `datetime.now()` in seconds. -/
structure Env where
  sourceA : AResp
  sourceB : Option CbrData
  now : Nat
deriving DecidableEq

/-- `self.cache_duration = timedelta(minutes=5)`, in seconds. -/
def cacheDurationSec : Nat := 300

/-- Result of `get_exchange_rates`: returned value, successor state, and
call counts toward Source A and Source B. -/
structure FetchResult where
  result : Option ApiData
  state : ConverterState
  callsA : Nat
  callsB : Nat
deriving DecidableEq

/-- Result of `convert` / `get_rate`. -/
structure NumResult where
  result : Option ℚ
  state : ConverterState
  callsA : Nat
  callsB : Nat
deriving DecidableEq

/-- Result of `get_available_currencies`. -/
structure ListResult where
  result : List String
  state : ConverterState
  callsA : Nat
  callsB : Nat
deriving DecidableEq

/-- `CurrencyConverter.__init__`: both cache dicts start empty. -/
def initState : ConverterState := ⟨[], []⟩

/-- Lines 17–21 of the source: the cached table served when `force_update`
is false, the key is in both dicts, and the entry is younger than
`cache_duration`; otherwise `none` (fall through to the network fetch). -/
def cacheServes (env : Env) (st : ConverterState) (base_currency : String)
    (force_update : Bool) : Option ApiData :=
  if force_update then none
  else
    match alLookup base_currency st.cache with
    | none => none
    | some d =>
      match alLookup base_currency st.cache_timestamps with
      | none => none
      | some t => if env.now - t < cacheDurationSec then some d else none

/-- `_get_rub_rate_from_cbr`: `none` on network/parse failure, on a missing
`Valute` field, or on a zero `Nominal` (Python's `ZeroDivisionError` is
caught by the blanket `except Exception`); otherwise the per-unit rates
`Value / Nominal` for whichever of `USD`, `EUR` the feed lists. -/
def get_rub_rate_from_cbr (resp : Option CbrData) : Option RubRates :=
  match resp with
  | none => none
  | some d =>
    if d.hasValute then
      if d.usd.any (fun v => decide (v.nominal = 0)) ||
          d.eur.any (fun v => decide (v.nominal = 0)) then none
      else
        some ⟨d.usd.map (fun v => v.value / v.nominal),
              d.eur.map (fun v => v.value / v.nominal)⟩
    else none

/-- Lines 31–35 of the source: overwrite `data["rates"]["RUB"]` with the
CBR per-unit rate when the CBR dict is truthy and has an entry matching the
upper-cased base currency; otherwise leave `data` untouched.  `r` is
`data.rates`'s payload at the call site. -/
def applyRubPatch (base_currency : String) (data : ApiData)
    (r : List (String × ℚ)) (rub : Option RubRates) : ApiData :=
  match rub with
  | none => data
  | some rd =>
    if rd.usd.isSome || rd.eur.isSome then
      if pyUpper base_currency = "USD" then
        match rd.usd with
        | some v => ⟨some (alSet "RUB" v r)⟩
        | none => data
      else if pyUpper base_currency = "EUR" then
        match rd.eur with
        | some v => ⟨some (alSet "RUB" v r)⟩
        | none => data
      else data
    else data

/-- Lines 29–35 of the source: Source B is consulted (second component `1`)
exactly when the parsed body has a `rates` field containing `"RUB"`; the
first component is the (possibly patched) table. -/
def fetchPatch (env : Env) (base_currency : String) (data : ApiData) : ApiData × Nat :=
  match data.rates with
  | none => (data, 0)
  | some r =>
    if (alLookup "RUB" r).isSome then
      (applyRubPatch base_currency data r (get_rub_rate_from_cbr env.sourceB), 1)
    else (data, 0)

/-- `CurrencyConverter.get_exchange_rates`.  Note the cache is keyed by the
raw `base_currency` argument, exactly as in the source. -/
def get_exchange_rates (env : Env) (st : ConverterState) (base_currency : String)
    (force_update : Bool) : FetchResult :=
  match cacheServes env st base_currency force_update with
  | some d => ⟨some d, st, 0, 0⟩
  | none =>
    match env.sourceA with
    | AResp.netErr => ⟨none, st, 1, 0⟩
    | AResp.parseErr => ⟨none, st, 1, 0⟩
    | AResp.ok data =>
      let pd := fetchPatch env base_currency data
      ⟨some pd.1,
        ⟨alSet base_currency pd.1 st.cache, alSet base_currency env.now st.cache_timestamps⟩,
        1, pd.2⟩

/-- `CurrencyConverter.clear_cache`. -/
def clear_cache (_st : ConverterState) : ConverterState := ⟨[], []⟩

/-- `CurrencyConverter.convert`. -/
def convert (env : Env) (st : ConverterState) (amount : ℚ)
    (from_currency to_currency : String) (force_update : Bool) : NumResult :=
  if pyUpper from_currency = pyUpper to_currency then ⟨some amount, st, 0, 0⟩
  else
    let force := if pyUpper from_currency = "RUB" ∨ pyUpper to_currency = "RUB"
      then true else force_update
    let fr := get_exchange_rates env st (pyUpper from_currency) force
    match fr.result with
    | none => ⟨none, fr.state, fr.callsA, fr.callsB⟩
    | some data =>
      match data.rates with
      | none => ⟨none, fr.state, fr.callsA, fr.callsB⟩
      | some rates =>
        match alLookup (pyUpper to_currency) rates with
        | none => ⟨none, fr.state, fr.callsA, fr.callsB⟩
        | some rate => ⟨some (amount * rate), fr.state, fr.callsA, fr.callsB⟩

/-- `CurrencyConverter.get_rate`. -/
def get_rate (env : Env) (st : ConverterState)
    (from_currency to_currency : String) (force_update : Bool) : NumResult :=
  if pyUpper from_currency = pyUpper to_currency then ⟨some 1, st, 0, 0⟩
  else
    let force := if pyUpper from_currency = "RUB" ∨ pyUpper to_currency = "RUB"
      then true else force_update
    let fr := get_exchange_rates env st (pyUpper from_currency) force
    match fr.result with
    | none => ⟨none, fr.state, fr.callsA, fr.callsB⟩
    | some data =>
      match data.rates with
      | none => ⟨none, fr.state, fr.callsA, fr.callsB⟩
      | some rates =>
        match alLookup (pyUpper to_currency) rates with
        | none => ⟨none, fr.state, fr.callsA, fr.callsB⟩
        | some rate => ⟨some rate, fr.state, fr.callsA, fr.callsB⟩

/-- `CurrencyConverter.get_available_currencies`: `sorted(list(rates.keys())
+ [base.upper()])` on success, `[]` on failure; no deduplication in the
source. -/
def get_available_currencies (env : Env) (st : ConverterState)
    (base_currency : String) : ListResult :=
  let fr := get_exchange_rates env st (pyUpper base_currency) false
  match fr.result with
  | none => ⟨[], fr.state, fr.callsA, fr.callsB⟩
  | some data =>
    match data.rates with
    | none => ⟨[], fr.state, fr.callsA, fr.callsB⟩
    | some rates =>
      ⟨List.insertionSort strLeRel (alKeys rates ++ [pyUpper base_currency]),
        fr.state, fr.callsA, fr.callsB⟩

/-- One public call on the converter, with its environment. -/
inductive Op where
  | opFetch (env : Env) (base : String) (force : Bool)
  | opConvert (env : Env) (amount : ℚ) (f t : String) (force : Bool)
  | opGetRate (env : Env) (f t : String) (force : Bool)
  | opCurrencies (env : Env) (base : String)
  | opClear

/-- State transition of one call. -/
def applyOp (st : ConverterState) : Op → ConverterState
  | Op.opFetch env b f => (get_exchange_rates env st b f).state
  | Op.opConvert env a f t fo => (convert env st a f t fo).state
  | Op.opGetRate env f t fo => (get_rate env st f t fo).state
  | Op.opCurrencies env b => (get_available_currencies env st b).state
  | Op.opClear => clear_cache st

/-- State after a sequence of calls on a freshly constructed converter. -/
def runOps (ops : List Op) : ConverterState := ops.foldl applyOp initState

/-- `cache` and `cache_timestamps` hold exactly the same keys. -/
def sameKeys (st : ConverterState) : Prop :=
  ∀ k, (alLookup k st.cache).isSome = (alLookup k st.cache_timestamps).isSome

/-- Condition under which the source consults Source B: Source A returned a
parsed body whose `rates` contain `"RUB"`. -/
def sourceARubTrigger (env : Env) : Bool :=
  match env.sourceA with
  | AResp.ok data =>
    match data.rates with
    | some r => (alLookup "RUB" r).isSome
    | none => false
  | _ => false

/-! ### Helper lemmas about the embedding -/

theorem alLookup_alSet_self {α : Type} (k : String) (v : α) (l : List (String × α)) :
    alLookup k (alSet k v l) = some v := by
  induction l with
  | nil => simp [alSet, alLookup]
  | cons p rest ih =>
    obtain ⟨k', v'⟩ := p
    by_cases h : k' = k
    · simp [alSet, alLookup, h]
    · simp [alSet, alLookup, h, ih]

theorem alLookup_alSet_ne {α : Type} (k k' : String) (v : α) (l : List (String × α))
    (h : k' ≠ k) : alLookup k' (alSet k v l) = alLookup k' l := by
  have hkk : k ≠ k' := fun hh => h hh.symm
  induction l with
  | nil => simp only [alSet, alLookup, if_neg hkk]
  | cons p rest ih =>
    obtain ⟨k'', v''⟩ := p
    by_cases hk : k'' = k
    · subst hk
      simp only [alSet, if_pos rfl, alLookup, if_neg hkk]
    · simp only [alSet, if_neg hk, alLookup]
      by_cases hk' : k'' = k'
      · rw [if_pos hk', if_pos hk']
      · rw [if_neg hk', if_neg hk', ih]

theorem charsLe_total : ∀ as bs : List Char, charsLe as bs = true ∨ charsLe bs as = true := by
  intro as
  induction as with
  | nil => intro bs; left; simp [charsLe]
  | cons a as ih =>
    intro bs
    cases bs with
    | nil => right; simp [charsLe]
    | cons b bs =>
      by_cases h1 : a.toNat < b.toNat
      · left; simp [charsLe, h1]
      · by_cases h2 : b.toNat < a.toNat
        · right; simp [charsLe, h2]
        · rcases ih bs with h | h
          · left; simp [charsLe, h1, h2, h]
          · right; simp [charsLe, h1, h2, h]

theorem charsLe_trans : ∀ as bs cs : List Char,
    charsLe as bs = true → charsLe bs cs = true → charsLe as cs = true := by
  intro as
  induction as with
  | nil => intro bs cs _ _; simp [charsLe]
  | cons a as ih =>
    intro bs cs h1 h2
    cases bs with
    | nil => simp [charsLe] at h1
    | cons b bs =>
      cases cs with
      | nil => simp [charsLe] at h2
      | cons c cs =>
        simp only [charsLe] at h1 h2 ⊢
        by_cases hab : a.toNat < b.toNat
        · by_cases hbc : b.toNat < c.toNat
          · have : a.toNat < c.toNat := hab.trans hbc
            simp [this]
          · by_cases hcb : c.toNat < b.toNat
            · simp [hbc, hcb] at h2
            · have hbceq : b.toNat = c.toNat := by omega
              have : a.toNat < c.toNat := by omega
              simp [this]
        · by_cases hba : b.toNat < a.toNat
          · simp [hab, hba] at h1
          · have habeq : a.toNat = b.toNat := by omega
            by_cases hbc : b.toNat < c.toNat
            · have : a.toNat < c.toNat := by omega
              simp [this]
            · by_cases hcb : c.toNat < b.toNat
              · simp [hbc, hcb] at h2
              · have : ¬ a.toNat < c.toNat := by omega
                have h3 : ¬ c.toNat < a.toNat := by omega
                simp only [hab, hba, if_neg, ite_false] at h1
                simp only [hbc, hcb, if_neg, ite_false] at h2
                simp [this, h3, ih bs cs h1 h2]

instance : IsTotal String strLeRel :=
  ⟨fun a b => charsLe_total a.data b.data⟩

instance : IsTrans String strLeRel :=
  ⟨fun a b c => charsLe_trans a.data b.data c.data⟩

theorem fetchPatch_fst_of_rub_none (env : Env) (b : String) (data : ApiData)
    (h : get_rub_rate_from_cbr env.sourceB = none) : (fetchPatch env b data).1 = data := by
  unfold fetchPatch
  cases data.rates with
  | none => rfl
  | some r =>
    by_cases hr : (alLookup "RUB" r).isSome
    · simp [hr, h, applyRubPatch]
    · simp [hr]

theorem get_exchange_rates_state_cases (env : Env) (st : ConverterState) (b : String)
    (f : Bool) :
    (get_exchange_rates env st b f).state = st ∨
    ∃ d, (get_exchange_rates env st b f).state =
      ⟨alSet b d st.cache, alSet b env.now st.cache_timestamps⟩ := by
  unfold get_exchange_rates
  cases hc : cacheServes env st b f with
  | some d => left; rfl
  | none =>
    cases ha : env.sourceA with
    | netErr => left; rfl
    | parseErr => left; rfl
    | ok data => right; exact ⟨(fetchPatch env b data).1, rfl⟩

theorem sameKeys_initState : sameKeys initState := by
  intro k; rfl

theorem sameKeys_set (st : ConverterState) (b : String) (d : ApiData) (n : Nat)
    (h : sameKeys st) :
    sameKeys ⟨alSet b d st.cache, alSet b n st.cache_timestamps⟩ := by
  intro k
  by_cases hk : k = b
  · subst hk
    show (alLookup k (alSet k d st.cache)).isSome = (alLookup k (alSet k n st.cache_timestamps)).isSome
    rw [alLookup_alSet_self, alLookup_alSet_self]
    rfl
  · show (alLookup k (alSet b d st.cache)).isSome = (alLookup k (alSet b n st.cache_timestamps)).isSome
    rw [alLookup_alSet_ne _ _ _ _ hk, alLookup_alSet_ne _ _ _ _ hk]
    exact h k

theorem sameKeys_get_exchange_rates (env : Env) (st : ConverterState) (b : String)
    (f : Bool) (h : sameKeys st) : sameKeys (get_exchange_rates env st b f).state := by
  rcases get_exchange_rates_state_cases env st b f with hc | ⟨d, hc⟩
  · rw [hc]; exact h
  · rw [hc]; exact sameKeys_set _ _ _ _ h

theorem convert_fetch (env : Env) (st : ConverterState) (a : ℚ) (f t : String) (fo : Bool)
    (he : pyUpper f ≠ pyUpper t) :
    ∃ res, convert env st a f t fo =
      ⟨res,
        (get_exchange_rates env st (pyUpper f)
          (if pyUpper f = "RUB" ∨ pyUpper t = "RUB" then true else fo)).state,
        (get_exchange_rates env st (pyUpper f)
          (if pyUpper f = "RUB" ∨ pyUpper t = "RUB" then true else fo)).callsA,
        (get_exchange_rates env st (pyUpper f)
          (if pyUpper f = "RUB" ∨ pyUpper t = "RUB" then true else fo)).callsB⟩ := by
  simp only [convert, if_neg he]
  split
  · exact ⟨none, rfl⟩
  · split
    · exact ⟨none, rfl⟩
    · split
      · exact ⟨none, rfl⟩
      · exact ⟨_, rfl⟩

theorem get_rate_fetch (env : Env) (st : ConverterState) (f t : String) (fo : Bool)
    (he : pyUpper f ≠ pyUpper t) :
    ∃ res, get_rate env st f t fo =
      ⟨res,
        (get_exchange_rates env st (pyUpper f)
          (if pyUpper f = "RUB" ∨ pyUpper t = "RUB" then true else fo)).state,
        (get_exchange_rates env st (pyUpper f)
          (if pyUpper f = "RUB" ∨ pyUpper t = "RUB" then true else fo)).callsA,
        (get_exchange_rates env st (pyUpper f)
          (if pyUpper f = "RUB" ∨ pyUpper t = "RUB" then true else fo)).callsB⟩ := by
  simp only [get_rate, if_neg he]
  split
  · exact ⟨none, rfl⟩
  · split
    · exact ⟨none, rfl⟩
    · split
      · exact ⟨none, rfl⟩
      · exact ⟨_, rfl⟩

theorem get_available_currencies_fetch (env : Env) (st : ConverterState) (b : String) :
    ∃ res, get_available_currencies env st b =
      ⟨res, (get_exchange_rates env st (pyUpper b) false).state,
        (get_exchange_rates env st (pyUpper b) false).callsA,
        (get_exchange_rates env st (pyUpper b) false).callsB⟩ := by
  simp only [get_available_currencies]
  split
  · exact ⟨[], rfl⟩
  · split
    · exact ⟨[], rfl⟩
    · exact ⟨_, rfl⟩

theorem get_exchange_rates_force_calls (env : Env) (st : ConverterState) (b : String) :
    (get_exchange_rates env st b true).callsA = 1 ∧
    (get_exchange_rates env st b true).callsB =
      (if sourceARubTrigger env = true then 1 else 0) := by
  unfold get_exchange_rates
  have hcs : cacheServes env st b true = none := rfl
  rw [hcs]
  cases ha : env.sourceA with
  | netErr => simp [sourceARubTrigger, ha]
  | parseErr => simp [sourceARubTrigger, ha]
  | ok data =>
    cases hr : data.rates with
    | none => simp [fetchPatch, hr, sourceARubTrigger, ha]
    | some r =>
      by_cases hrub : (alLookup "RUB" r).isSome
      · simp [fetchPatch, hr, hrub, sourceARubTrigger, ha]
      · simp [fetchPatch, hr, hrub, sourceARubTrigger, ha]

/-! ### Claims -/

/-- C4: if a cached entry for the base currency exists whose age is strictly
below the 5-minute window, `get_exchange_rates` with `force_update = false`
returns the identical cached table, leaves the state unchanged, and performs
no call to Source A and none to Source B. -/
theorem claim_C4_fresh_cache_hit (env : Env) (st : ConverterState) (base : String)
    (d : ApiData) (t : Nat)
    (h1 : alLookup base st.cache = some d)
    (h2 : alLookup base st.cache_timestamps = some t)
    (h3 : env.now - t < cacheDurationSec) :
    get_exchange_rates env st base false = ⟨some d, st, 0, 0⟩ := by
  unfold get_exchange_rates cacheServes
  simp [h1, h2, h3]

def dW4 : ApiData := ⟨some [("EUR", 2)]⟩

def stW4 : ConverterState := ⟨[("USD", dW4)], [("USD", 50)]⟩

def envW4 : Env := ⟨AResp.netErr, none, 100⟩

/-- C4 witness: a concrete fresh cache entry (age 50 s) is served untouched. -/
theorem claim_C4_witness :
    get_exchange_rates envW4 stW4 "USD" false = ⟨some dW4, stW4, 0, 0⟩ :=
  claim_C4_fresh_cache_hit envW4 stW4 "USD" dW4 50 rfl rfl (by decide)

/-- C7: whenever the call falls through to Source A (the cache does not
serve) and Source A fails — network error / non-2xx or unparseable body —
`get_exchange_rates` returns a failure value and the state, hence both the
cache and the timestamps, is exactly as before the call. -/
theorem claim_C7_sourceA_failure (env : Env) (st : ConverterState) (base : String)
    (force : Bool)
    (hcs : cacheServes env st base force = none)
    (hA : env.sourceA = AResp.netErr ∨ env.sourceA = AResp.parseErr) :
    (get_exchange_rates env st base force).result = none ∧
    (get_exchange_rates env st base force).state = st := by
  unfold get_exchange_rates
  rw [hcs]
  rcases hA with h | h <;> rw [h] <;> exact ⟨rfl, rfl⟩

def envW7 : Env := ⟨AResp.netErr, none, 0⟩

/-- C7 witness: a concrete network failure returns `none` and leaves the
fresh converter state untouched. -/
theorem claim_C7_witness :
    (get_exchange_rates envW7 initState "USD" false).result = none ∧
    (get_exchange_rates envW7 initState "USD" false).state = initState :=
  claim_C7_sourceA_failure envW7 initState "USD" false rfl (Or.inl rfl)

/-- C8: for any amount and any two codes equal up to letter case (covering
`convert(x, C, C)` for arbitrary, also unrecognized, codes), `convert`
returns the amount unchanged and `get_rate` returns exactly `1`, with the
state untouched and zero calls to either source. -/
theorem claim_C8_same_currency (env : Env) (st : ConverterState) (x : ℚ)
    (c1 c2 : String) (fo : Bool) (h : pyUpper c1 = pyUpper c2) :
    convert env st x c1 c2 fo = ⟨some x, st, 0, 0⟩ ∧
    get_rate env st c1 c2 fo = ⟨some 1, st, 0, 0⟩ := by
  constructor
  · unfold convert; rw [if_pos h]
  · unfold get_rate; rw [if_pos h]

def envW8 : Env := ⟨AResp.netErr, none, 0⟩

/-- C8 witness: `convert 7 "usd" "USD"` returns `7` and
`get_rate "usd" "USD"` returns `1` with no calls, even though the network
is down. -/
theorem claim_C8_witness :
    convert envW8 initState 7 "usd" "USD" false = ⟨some 7, initState, 0, 0⟩ ∧
    get_rate envW8 initState "usd" "USD" false = ⟨some 1, initState, 0, 0⟩ :=
  claim_C8_same_currency envW8 initState 7 "usd" "USD" false (by decide)

/-- C10: after every sequence of operations on a freshly constructed
converter, `cache` and `cache_timestamps` hold exactly the same keys: a
successful fetch stores table and timestamp together, and `clear_cache`
removes both together. -/
theorem claim_C10_cache_keys_invariant : ∀ ops : List Op, sameKeys (runOps ops) := by
  have hstep : ∀ (st : ConverterState) (op : Op), sameKeys st → sameKeys (applyOp st op) := by
    intro st op h
    cases op with
    | opFetch env b f => exact sameKeys_get_exchange_rates env st b f h
    | opConvert env a f t fo =>
      by_cases he : pyUpper f = pyUpper t
      · have hcv : convert env st a f t fo = ⟨some a, st, 0, 0⟩ := by
          unfold convert; rw [if_pos he]
        show sameKeys (convert env st a f t fo).state
        rw [hcv]
        exact h
      · obtain ⟨res, hc⟩ := convert_fetch env st a f t fo he
        show sameKeys (convert env st a f t fo).state
        rw [hc]
        exact sameKeys_get_exchange_rates _ _ _ _ h
    | opGetRate env f t fo =>
      by_cases he : pyUpper f = pyUpper t
      · have hgr : get_rate env st f t fo = ⟨some 1, st, 0, 0⟩ := by
          unfold get_rate; rw [if_pos he]
        show sameKeys (get_rate env st f t fo).state
        rw [hgr]
        exact h
      · obtain ⟨res, hc⟩ := get_rate_fetch env st f t fo he
        show sameKeys (get_rate env st f t fo).state
        rw [hc]
        exact sameKeys_get_exchange_rates _ _ _ _ h
    | opCurrencies env b =>
      obtain ⟨res, hc⟩ := get_available_currencies_fetch env st b
      show sameKeys (get_available_currencies env st b).state
      rw [hc]
      exact sameKeys_get_exchange_rates _ _ _ _ h
    | opClear => exact fun k => rfl
  intro ops
  have hfold : ∀ (l : List Op) (st : ConverterState), sameKeys st → sameKeys (l.foldl applyOp st) := by
    intro l
    induction l with
    | nil => intro st h; exact h
    | cons op rest ih => intro st h; exact ih _ (hstep st op h)
  exact hfold ops initState sameKeys_initState

/-- C6: when Source A succeeds, a failing Source B (network/parse failure
`none`, or a parsed body missing the `Valute` field) never fails the fetch:
the CBR helper reports unavailable (`none`) and Source A's table is returned
and cached unchanged, its original RUB value untouched. -/
theorem claim_C6_sourceB_failure_swallowed (env : Env) (st : ConverterState)
    (base : String) (force : Bool) (data : ApiData)
    (hcs : cacheServes env st base force = none)
    (hA : env.sourceA = AResp.ok data)
    (hB : env.sourceB = none ∨ ∃ d, env.sourceB = some d ∧ d.hasValute = false) :
    get_rub_rate_from_cbr env.sourceB = none ∧
    (get_exchange_rates env st base force).result = some data ∧
    alLookup base (get_exchange_rates env st base force).state.cache = some data := by
  have hrb : get_rub_rate_from_cbr env.sourceB = none := by
    rcases hB with h | ⟨d, h, hv⟩
    · rw [h]; rfl
    · rw [h]; unfold get_rub_rate_from_cbr; simp [hv]
  have hpd : (fetchPatch env base data).1 = data :=
    fetchPatch_fst_of_rub_none env base data hrb
  refine ⟨hrb, ?_, ?_⟩
  · unfold get_exchange_rates
    rw [hcs, hA]
    show some (fetchPatch env base data).1 = some data
    rw [hpd]
  · unfold get_exchange_rates
    rw [hcs, hA]
    show alLookup base (alSet base (fetchPatch env base data).1 st.cache) = some data
    rw [hpd, alLookup_alSet_self]

def dW6 : ApiData := ⟨some [("RUB", 5), ("EUR", 2)]⟩

def envW6 : Env := ⟨AResp.ok dW6, none, 10⟩

/-- C6 witness: Source B down (network failure), Source A's table — RUB
entry included — is returned and cached unpatched. -/
theorem claim_C6_witness :
    get_rub_rate_from_cbr envW6.sourceB = none ∧
    (get_exchange_rates envW6 initState "USD" false).result = some dW6 ∧
    alLookup "USD" (get_exchange_rates envW6 initState "USD" false).state.cache = some dW6 :=
  claim_C6_sourceB_failure_swallowed envW6 initState "USD" false dW6 rfl rfl (Or.inl rfl)

/-- C5: when the call reaches Source A, Source A's table contains a RUB
entry, Source B succeeds, and its patch dict has an entry matching the
(upper-cased) base currency — one of the two tracked foreign currencies USD
and EUR — the returned and cached table is Source A's table with its RUB
rate overwritten by Source B's per-unit value, every other rate unchanged. -/
theorem claim_C5_rub_patched (env : Env) (st : ConverterState) (base : String)
    (force : Bool) (data : ApiData) (r : List (String × ℚ)) (rd : RubRates) (p : ℚ)
    (hcs : cacheServes env st base force = none)
    (hA : env.sourceA = AResp.ok data)
    (hr : data.rates = some r)
    (hrub : (alLookup "RUB" r).isSome = true)
    (hB : get_rub_rate_from_cbr env.sourceB = some rd)
    (hm : (pyUpper base = "USD" ∧ rd.usd = some p) ∨
      (pyUpper base = "EUR" ∧ rd.eur = some p)) :
    (get_exchange_rates env st base force).result = some ⟨some (alSet "RUB" p r)⟩ ∧
    alLookup base (get_exchange_rates env st base force).state.cache =
      some ⟨some (alSet "RUB" p r)⟩ ∧
    alLookup "RUB" (alSet "RUB" p r) = some p ∧
    ∀ k, k ≠ "RUB" → alLookup k (alSet "RUB" p r) = alLookup k r := by
  have hpatch : applyRubPatch base data r (some rd) = ⟨some (alSet "RUB" p r)⟩ := by
    unfold applyRubPatch
    rcases hm with ⟨hb, hp⟩ | ⟨hb, hp⟩
    · simp [hb, hp]
    · simp [hb, hp]
  have hfp : fetchPatch env base data = (⟨some (alSet "RUB" p r)⟩, 1) := by
    unfold fetchPatch
    rw [hr]
    simp only [hrub, if_true, hB, hpatch]
  refine ⟨?_, ?_, alLookup_alSet_self _ _ _, fun k hk => alLookup_alSet_ne _ _ _ _ hk⟩
  · unfold get_exchange_rates
    rw [hcs, hA]
    show some (fetchPatch env base data).1 = some ⟨some (alSet "RUB" p r)⟩
    rw [hfp]
  · unfold get_exchange_rates
    rw [hcs, hA]
    show alLookup base (alSet base (fetchPatch env base data).1 st.cache) =
      some ⟨some (alSet "RUB" p r)⟩
    rw [hfp, alLookup_alSet_self]

def dW5 : ApiData := ⟨some [("EUR", 9/10), ("RUB", 95)]⟩

def envW5 : Env := ⟨AResp.ok dW5, some ⟨true, some ⟨183/2, 1⟩, none⟩, 1000⟩

/-- C5 witness: the spec's example — Source A gives `{EUR: 0.9, RUB: 95}`
for base `USD`, Source B gives `USD ↦ 91.5` (value 183/2 per nominal 1);
the cached table has `RUB = 91.5` and `EUR = 0.9`. -/
theorem claim_C5_witness :
    (get_exchange_rates envW5 initState "USD" false).result =
      some ⟨some [("EUR", 9/10), ("RUB", 183/2/1)]⟩ ∧
    alLookup "RUB" [("EUR", (9:ℚ)/10), ("RUB", (183:ℚ)/2/1)] = some (183/2/1) ∧
    alLookup "EUR" [("EUR", (9:ℚ)/10), ("RUB", (183:ℚ)/2/1)] = some (9/10) := by
  have h := claim_C5_rub_patched envW5 initState "USD" false dW5
    [("EUR", 9/10), ("RUB", 95)] ⟨some (183/2/1), none⟩ (183/2/1)
    rfl rfl rfl rfl rfl (Or.inl ⟨rfl, rfl⟩)
  exact ⟨h.1, h.2.2.1, h.2.2.2 "EUR" (by decide)⟩

def envX1 : Env := ⟨AResp.ok ⟨some [("USD", 1), ("EUR", 9/10)]⟩, none, 1000⟩

/-- C1 counterexample: with the base currency `USD` already among the rates
keys, `get_available_currencies` returns `["EUR", "USD", "USD"]` — the base
appears twice, refuting "no duplicate elements even when the base currency
already appears among the rates keys". -/
theorem claim_C1_counterexample :
    (get_available_currencies envX1 initState "USD").result = ["EUR", "USD", "USD"] ∧
    ¬ (get_available_currencies envX1 initState "USD").result.Nodup := by
  exact ⟨by decide, by decide⟩

/-- C1 amended: on a successful fetch, `get_available_currencies` returns
the keys of the fetched rates mapping with the upper-cased base currency
appended — without deduplication, so the base occurs twice when it is
already among the keys — sorted lexicographically ascending: the result is
sorted and is a permutation of `keys ++ [base]`. -/
theorem claim_C1_sorted_not_dedup (env : Env) (st : ConverterState) (base : String)
    (data : ApiData) (r : List (String × ℚ))
    (hA : (get_exchange_rates env st (pyUpper base) false).result = some data)
    (hr : data.rates = some r) :
    (get_available_currencies env st base).result =
      List.insertionSort strLeRel (alKeys r ++ [pyUpper base]) ∧
    List.Sorted strLeRel (get_available_currencies env st base).result ∧
    (get_available_currencies env st base).result.Perm (alKeys r ++ [pyUpper base]) := by
  have hres : (get_available_currencies env st base).result =
      List.insertionSort strLeRel (alKeys r ++ [pyUpper base]) := by
    simp only [get_available_currencies, hA, hr]
  refine ⟨hres, ?_, ?_⟩
  · rw [hres]; exact List.sorted_insertionSort strLeRel _
  · rw [hres]; exact List.perm_insertionSort strLeRel _

def envW1 : Env := ⟨AResp.ok ⟨some [("EUR", 1), ("RUB", 80)]⟩, none, 5⟩

/-- C1 witness: concrete fetched table `{EUR, RUB}` for base `USD` gives a
sorted permutation of `["EUR", "RUB", "USD"]`. -/
theorem claim_C1_witness :
    (get_available_currencies envW1 initState "USD").result =
      List.insertionSort strLeRel (alKeys [("EUR", (1:ℚ)), ("RUB", (80:ℚ))] ++ [pyUpper "USD"]) ∧
    List.Sorted strLeRel (get_available_currencies envW1 initState "USD").result ∧
    (get_available_currencies envW1 initState "USD").result.Perm
      (alKeys [("EUR", (1:ℚ)), ("RUB", (80:ℚ))] ++ [pyUpper "USD"]) :=
  claim_C1_sorted_not_dedup envW1 initState "USD" ⟨some [("EUR", 1), ("RUB", 80)]⟩
    [("EUR", 1), ("RUB", 80)] rfl rfl

def envX2 : Env := ⟨AResp.ok ⟨none⟩, none, 7⟩

/-- C2 counterexample: a response whose body parses but has no `rates`
field is NOT reported as a fetch failure — `get_exchange_rates` returns it
as a success and stores it in the cache. -/
theorem claim_C2_counterexample :
    (get_exchange_rates envX2 initState "USD" false).result = some ⟨none⟩ ∧
    alLookup "USD" (get_exchange_rates envX2 initState "USD" false).state.cache =
      some ⟨none⟩ :=
  ⟨rfl, rfl⟩

/-- C2 amended: for a Source A response whose body parses but lacks the
`rates` field, `get_exchange_rates` does not fail: it returns the parsed
data as a success and caches it under the base currency, stamped with the
current time (such a table surfaces as a failure only later, in
`convert`/`get_rate`, which check for the `rates` field). -/
theorem claim_C2_missing_rates_cached (env : Env) (st : ConverterState) (base : String)
    (force : Bool) (data : ApiData)
    (hcs : cacheServes env st base force = none)
    (hA : env.sourceA = AResp.ok data)
    (hr : data.rates = none) :
    (get_exchange_rates env st base force).result = some data ∧
    alLookup base (get_exchange_rates env st base force).state.cache = some data ∧
    alLookup base (get_exchange_rates env st base force).state.cache_timestamps =
      some env.now := by
  have hfp : fetchPatch env base data = (data, 0) := by
    unfold fetchPatch; rw [hr]
  refine ⟨?_, ?_, ?_⟩
  · unfold get_exchange_rates
    rw [hcs, hA]
    show some (fetchPatch env base data).1 = some data
    rw [hfp]
  · unfold get_exchange_rates
    rw [hcs, hA]
    show alLookup base (alSet base (fetchPatch env base data).1 st.cache) = some data
    rw [hfp, alLookup_alSet_self]
  · unfold get_exchange_rates
    rw [hcs, hA]
    show alLookup base (alSet base env.now st.cache_timestamps) = some env.now
    rw [alLookup_alSet_self]

/-- C2 witness: the rates-less parsed body is returned and cached for a
concrete call. -/
theorem claim_C2_witness :
    (get_exchange_rates envX2 initState "GBP" false).result = some ⟨none⟩ ∧
    alLookup "GBP" (get_exchange_rates envX2 initState "GBP" false).state.cache =
      some ⟨none⟩ ∧
    alLookup "GBP" (get_exchange_rates envX2 initState "GBP" false).state.cache_timestamps =
      some 7 :=
  claim_C2_missing_rates_cached envX2 initState "GBP" false ⟨none⟩ rfl rfl rfl

def envX3 : Env := ⟨AResp.ok ⟨some [("EUR", 2)]⟩, none, 50⟩

def stX3a : ConverterState := (get_exchange_rates envX3 initState "usd" false).state

def stX3b : ConverterState := (get_exchange_rates envX3 stX3a "USD" false).state

/-- C3 counterexample: `get_exchange_rates` does not normalize its argument
— calling it with `"usd"` and then `"USD"` (codes differing only in case)
creates two distinct cache entries for the same currency code. -/
theorem claim_C3_counterexample :
    pyUpper "usd" = pyUpper "USD" ∧
    (alLookup "usd" stX3b.cache).isSome = true ∧
    (alLookup "USD" stX3b.cache).isSome = true ∧
    "usd" ≠ "USD" := by
  exact ⟨by decide, by decide, by decide, by decide⟩

/-- C3 amended: the three public operations `convert`, `get_rate` and
`get_available_currencies` normalize their currency-code arguments to
upper-case before use, so arguments differing only in letter case give
identical results and states (hence use the same upper-cased cache entry);
`get_exchange_rates` itself, however, keys the cache by its raw argument,
so direct calls with differently-cased codes create separate entries. -/
theorem claim_C3_wrappers_normalize (env : Env) (st : ConverterState) (amount : ℚ)
    (fo : Bool) (f1 t1 f2 t2 b1 b2 : String)
    (hf : pyUpper f1 = pyUpper f2) (ht : pyUpper t1 = pyUpper t2)
    (hb : pyUpper b1 = pyUpper b2) :
    convert env st amount f1 t1 fo = convert env st amount f2 t2 fo ∧
    get_rate env st f1 t1 fo = get_rate env st f2 t2 fo ∧
    get_available_currencies env st b1 = get_available_currencies env st b2 := by
  refine ⟨?_, ?_, ?_⟩
  · unfold convert; rw [hf, ht]
  · unfold get_rate; rw [hf, ht]
  · unfold get_available_currencies; rw [hb]

def envW3 : Env := ⟨AResp.ok ⟨some [("EUR", 2), ("RUB", 80)]⟩, none, 60⟩

/-- C3 witness: lower-case and upper-case spellings behave identically
through the three public operations. -/
theorem claim_C3_witness :
    convert envW3 initState 3 "usd" "eur" false =
      convert envW3 initState 3 "USD" "EUR" false ∧
    get_rate envW3 initState "usd" "eur" false =
      get_rate envW3 initState "USD" "EUR" false ∧
    get_available_currencies envW3 initState "gbp" =
      get_available_currencies envW3 initState "GBP" :=
  claim_C3_wrappers_normalize envW3 initState 3 false "usd" "eur" "USD" "EUR"
    "gbp" "GBP" (by decide) (by decide) (by decide)

def dX9 : ApiData := ⟨some [("RUB", 90)]⟩

def stX9 : ConverterState := ⟨[("EUR", dX9)], [("EUR", 800)]⟩

def envX9 : Env := ⟨AResp.ok ⟨some [("USD", 2)]⟩, some ⟨true, some ⟨90, 1⟩, some ⟨100, 1⟩⟩, 1000⟩

/-- C9 counterexample: for `convert(1, "EUR", "RUB")` with a fresh cache
entry for `EUR`, the fresh entry is indeed ignored and Source A consulted
(`callsA = 1`), but Source B is NOT attempted (`callsB = 0`) because
Source A's table contains no RUB entry — refuting the unconditional
"Source B is attempted". -/
theorem claim_C9_counterexample :
    cacheServes envX9 stX9 "EUR" false = some dX9 ∧
    (convert envX9 stX9 1 "EUR" "RUB" false).callsA = 1 ∧
    (convert envX9 stX9 1 "EUR" "RUB" false).callsB = 0 :=
  ⟨rfl, rfl, rfl⟩

/-- C9 amended: when either side of a `convert` or `get_rate` call equals
`RUB` up to case (and the two sides differ), `force_update` is forced to
true, so any fresh cache entry for the from-currency is ignored and
Source A is consulted unconditionally (`callsA = 1`); Source B is attempted
exactly when Source A succeeds with a table containing a RUB entry. -/
theorem claim_C9_rub_forces_update (env : Env) (st : ConverterState) (amount : ℚ)
    (f t : String) (fo : Bool)
    (hne : pyUpper f ≠ pyUpper t)
    (hrub : pyUpper f = "RUB" ∨ pyUpper t = "RUB") :
    (convert env st amount f t fo).callsA = 1 ∧
    (convert env st amount f t fo).callsB =
      (if sourceARubTrigger env = true then 1 else 0) ∧
    (get_rate env st f t fo).callsA = 1 ∧
    (get_rate env st f t fo).callsB =
      (if sourceARubTrigger env = true then 1 else 0) := by
  obtain ⟨res, hc⟩ := convert_fetch env st amount f t fo hne
  obtain ⟨res', hg⟩ := get_rate_fetch env st f t fo hne
  rw [if_pos hrub] at hc hg
  have hca := (get_exchange_rates_force_calls env st (pyUpper f)).1
  have hcb := (get_exchange_rates_force_calls env st (pyUpper f)).2
  refine ⟨?_, ?_, ?_, ?_⟩
  · rw [hc]; exact hca
  · rw [hc]; exact hcb
  · rw [hg]; exact hca
  · rw [hg]; exact hcb

def stW9 : ConverterState := ⟨[("USD", ⟨some [("EUR", 1)]⟩)], [("USD", 990)]⟩

def envW9 : Env := ⟨AResp.ok ⟨some [("EUR", 3), ("RUB", 80)]⟩, some ⟨true, some ⟨91, 1⟩, none⟩, 1000⟩

/-- C9 witness: `USD → RUB` with a fresh `USD` cache entry still consults
Source A, and — Source A's table containing RUB — attempts Source B. -/
theorem claim_C9_witness :
    (convert envW9 stW9 1 "USD" "RUB" false).callsA = 1 ∧
    (convert envW9 stW9 1 "USD" "RUB" false).callsB = 1 ∧
    (get_rate envW9 stW9 "USD" "RUB" false).callsA = 1 ∧
    (get_rate envW9 stW9 "USD" "RUB" false).callsB = 1 := by
  have h := claim_C9_rub_forces_update envW9 stW9 1 "USD" "RUB" false
    (by decide) (Or.inr (by decide))
  exact ⟨h.1, h.2.1, h.2.2.1, h.2.2.2⟩
